import Mathlib

/-!
Verification development for the PowerShell terminal completion provider
(`pwshCompletionProvider.ts`): wire decoder, completion normalizer, request
correlator, context tracker and global command cache.

The TypeScript source is shallowly embedded below.  Pure functions become
Lean functions; the stateful addon becomes explicit state passing on a
`ProviderState` record; JavaScript `undefined` becomes `Option`; exceptions
become `Except`.  External collaborators that are not part of the two source
files (the `Codicon` icon registry, the `TerminalCompletionItem` class, the
prompt input model, `normalizePathSeparator`, the platform path separator
`sep`) are modelled from the spec, as noted on each definition.
-/

/-- Theme icon reference, identified by its icon id
(models `ThemeIcon` from the themables module, which only carries an id
relevant to this code). -/
structure ThemeIcon where
  id : String
deriving Repr, DecidableEq

namespace Codicon

/-- Modelled from the spec: the icon constants of the external `Codicon`
registry that the fixed kind-to-icon table refers to. -/
def symbolText : ThemeIcon := ⟨"symbol-text"⟩

def history : ThemeIcon := ⟨"history"⟩

def symbolMethod : ThemeIcon := ⟨"symbol-method"⟩

def symbolFile : ThemeIcon := ⟨"symbol-file"⟩

def folder : ThemeIcon := ⟨"folder"⟩

def symbolProperty : ThemeIcon := ⟨"symbol-property"⟩

def symbolVariable : ThemeIcon := ⟨"symbol-variable"⟩

def symbolValue : ThemeIcon := ⟨"symbol-value"⟩

def symbolNamespace : ThemeIcon := ⟨"symbol-namespace"⟩

def symbolInterface : ThemeIcon := ⟨"symbol-interface"⟩

def symbolKeyword : ThemeIcon := ⟨"symbol-keyword"⟩

end Codicon

/-- Modelled from the spec: the property-name-to-icon association of the
external `Codicon` object, restricted to a finite registry.  In the source,
`customIconId in Codicon` tests membership of the property name and
`Codicon[customIconId]` reads the icon; here both are `List.lookup` on this
association list. -/
def codiconRegistry : List (String × ThemeIcon) :=
  [("symbolText", Codicon.symbolText),
   ("history", Codicon.history),
   ("symbolMethod", Codicon.symbolMethod),
   ("symbolFile", Codicon.symbolFile),
   ("folder", Codicon.folder),
   ("symbolProperty", Codicon.symbolProperty),
   ("symbolVariable", Codicon.symbolVariable),
   ("symbolValue", Codicon.symbolValue),
   ("symbolNamespace", Codicon.symbolNamespace),
   ("symbolInterface", Codicon.symbolInterface),
   ("symbolKeyword", Codicon.symbolKeyword)]

/-- Embeds `pwshTypeToIconMap` (lines 381-396): the fixed result-kind to icon
lookup table; kinds absent from the table yield `none`. -/
def pwshTypeToIconMap (type : Nat) : Option ThemeIcon :=
  match type with
  | 0 => some Codicon.symbolText
  | 1 => some Codicon.history
  | 2 => some Codicon.symbolMethod
  | 3 => some Codicon.symbolFile
  | 4 => some Codicon.folder
  | 5 => some Codicon.symbolProperty
  | 6 => some Codicon.symbolMethod
  | 7 => some Codicon.symbolVariable
  | 8 => some Codicon.symbolValue
  | 9 => some Codicon.symbolVariable
  | 10 => some Codicon.symbolNamespace
  | 11 => some Codicon.symbolInterface
  | 12 => some Codicon.symbolKeyword
  | 13 => some Codicon.symbolKeyword
  | _ => none

/-- Embeds `getIcon` (lines 371-379).  In the source, when `customIconId` is
truthy (present and non-empty) the local `icon` is the registry entry when the
id is a key of `Codicon` and `Codicon.symbolText` otherwise; since theme icons
are objects and therefore truthy, `if (icon) return icon` always returns on
that path.  The kind-table fallback line is reached only when `customIconId`
is absent or the empty string. -/
def getIcon (resultType : Nat) (customIconId : Option String) : ThemeIcon :=
  match customIconId with
  | some id =>
    if id.isEmpty then
      (pwshTypeToIconMap resultType).getD Codicon.symbolText
    else
      (codiconRegistry.lookup id).getD Codicon.symbolText
  | none => (pwshTypeToIconMap resultType).getD Codicon.symbolText

/-- Embeds the `PwshCompletion` object wire form (lines 35-40). -/
structure PwshCompletion where
  CompletionText : String
  ResultType : Nat
  ToolTip : Option String := none
  CustomIcon : Option String := none
deriving Repr, DecidableEq

/-- Embeds the `CompressedPwshCompletion` positional 4-tuple wire form
(lines 28-33): index 0 is the completion text, 1 the result kind, 2 the
optional tooltip, 3 the optional custom icon id. -/
structure CompressedPwshCompletion where
  completionText : String
  resultType : Nat
  toolTip : Option String := none
  customIcon : Option String := none
deriving Repr, DecidableEq

/-- Embeds the tuple-to-object field mapping applied in
`parseCompletionsFromShell` (lines 308-320): index 0 becomes
`CompletionText`, 1 `ResultType`, 2 `ToolTip`, 3 `CustomIcon`. -/
def compressedToPwshCompletion (e : CompressedPwshCompletion) : PwshCompletion :=
  { CompletionText := e.completionText,
    ResultType := e.resultType,
    ToolTip := e.toolTip,
    CustomIcon := e.customIcon }

/-- Element-wise encoding of an object-form record as a positional tuple
(the spec-side correspondence used to compare the two wire forms). -/
def pwshToCompressed (c : PwshCompletion) : CompressedPwshCompletion :=
  { completionText := c.CompletionText,
    resultType := c.ResultType,
    toolTip := c.ToolTip,
    customIcon := c.CustomIcon }

/-- Modelled from the spec: the normalized `TerminalCompletionItem` consumed
by the UI (the class itself lives in `terminalSuggestionService.ts`, outside
the two source files); fields follow the constructor-argument order used at
lines 357-368.  The two constructor arguments that are always `undefined`
at that call site are omitted. -/
structure TerminalCompletionItem where
  label : String
  icon : ThemeIcon
  detail : String
  isFile : Bool
  isDirectory : Bool
  isKeyword : Bool
  replacementIndex : Nat
  replacementLength : Nat
deriving Repr, DecidableEq

/-- A path separator character, the character class of the source regexes
`/[\\\/]$/` and `/(?<sep>[\\\/])/`. -/
def isPathSepChar (c : Char) : Bool :=
  c = '\\' || c = '/'

/-- Whether the label already ends in a path separator: the regex test
`label.match(/[\\\/]$/)`. -/
def endsWithPathSep (s : String) : Bool :=
  (s.data.getLast?.map isPathSepChar).getD false

/-- First path separator character occurring in the label: the regex capture
`label.match(/(?<sep>[\\\/])/)?.groups?.sep`. -/
def firstPathSepChar (s : String) : Option Char :=
  s.data.find? isPathSepChar

/-- Modelled from the spec: the host default path separator (`sep` from the
path module, which is outside the two source files; platform dependent in the
source, fixed here). -/
def sepChar : Char := '/'

/-- A character of the class `[a-z0-9]` under the `i` flag, i.e. an ASCII
alphanumeric character, as in the regex `/\.[a-z0-9]{2,4}$/i`. -/
def isExtensionChar (c : Char) : Bool :=
  c.isAlphanum

/-- Embeds the test `rawCompletion.CompletionText.match(/\.[a-z0-9]{2,4}$/i)`
(line 352): the text ends in a literal dot followed by between 2 and 4 ASCII
alphanumeric characters.  Stated over the reversed character list: for some
k in 2..4, the character k places before the end is a dot and the last k
characters are alphanumeric. -/
def matchShortExtension (s : String) : Bool :=
  let rcs := s.data.reverse
  [2, 3, 4].any fun k => rcs[k]? == some '.' && (rcs.take k).all isExtensionChar

/-- Embeds the directory suffixing step of
`rawCompletionToTerminalCompletionItem` (lines 334-343): for result kind 4,
unless the label is exactly a `-`/`+` (location history) or `.`/`..` entry or
already ends in a path separator, append the first separator found inside the
label, defaulting to the host separator. -/
def directorySuffixedLabel (raw : PwshCompletion) : String :=
  let label := raw.CompletionText
  if raw.ResultType == 4
      && !(label == "-" || label == "+")
      && !(label == "." || label == "..")
      && !endsWithPathSep label then
    label.push ((firstPathSepChar label).getD sepChar)
  else
    label

/-- Embeds the executable reclassification of
`rawCompletionToTerminalCompletionItem` (lines 352-355): result kind 2 whose
text ends in a short alphanumeric extension is reassigned result kind 3
before the flags are derived. -/
def reclassifiedResultType (raw : PwshCompletion) : Nat :=
  if raw.ResultType == 2 && matchShortExtension raw.CompletionText then 3
  else raw.ResultType

/-- Embeds `rawCompletionToTerminalCompletionItem` (lines 328-369).  The
icon is computed from the original result kind (line 351) before the
executable reclassification mutates it (line 354); the flags are derived
from the reclassified kind (lines 361-363). -/
def rawCompletionToTerminalCompletionItem (rawCompletion : PwshCompletion)
    (replacementIndex replacementLength : Nat) : TerminalCompletionItem :=
  let label := directorySuffixedLabel rawCompletion
  let detail := rawCompletion.ToolTip.getD label
  let icon := getIcon rawCompletion.ResultType rawCompletion.CustomIcon
  let resultType := reclassifiedResultType rawCompletion
  { label := label,
    icon := icon,
    detail := detail,
    isFile := resultType == 3,
    isDirectory := resultType == 4,
    isKeyword := resultType == 12,
    replacementIndex := replacementIndex,
    replacementLength := replacementLength }

/-- The union type accepted by `parseCompletionsFromShell` (line 296),
decoded as a tagged union: JavaScript `undefined` (or any falsy payload), a
single object record, a single positional tuple (an array whose first element
is a string), an array of tuples (an array whose first element is an array),
or an array of object records. -/
inductive RawCompletionsInput where
  | undef
  | singleObject (c : PwshCompletion)
  | singleCompressed (t : CompressedPwshCompletion)
  | compressedArray (ts : List CompressedPwshCompletion)
  | objectArray (cs : List PwshCompletion)
deriving Repr, DecidableEq

/-- Embeds `parseCompletionsFromShell` (lines 296-326): falsy input yields
the empty batch, a non-array input is wrapped as a single record, an empty
array yields the empty batch, tuple elements are converted field-wise to
object records, and every record is normalized with the given replacement
span. -/
def parseCompletionsFromShell (rawCompletions : RawCompletionsInput)
    (replacementIndex replacementLength : Nat) : List TerminalCompletionItem :=
  match rawCompletions with
  | .undef => []
  | .singleObject c =>
    [rawCompletionToTerminalCompletionItem c replacementIndex replacementLength]
  | .singleCompressed t =>
    [rawCompletionToTerminalCompletionItem (compressedToPwshCompletion t)
      replacementIndex replacementLength]
  | .compressedArray ts =>
    if ts.isEmpty then []
    else ts.map fun t =>
      rawCompletionToTerminalCompletionItem (compressedToPwshCompletion t)
        replacementIndex replacementLength
  | .objectArray cs =>
    if cs.isEmpty then []
    else cs.map fun c =>
      rawCompletionToTerminalCompletionItem c replacementIndex replacementLength

/-- Modelled from the spec: the read-only prompt input snapshot
(`IPromptInputModelState`, outside the two source files): value, prefix,
suffix, cursor index and ghost text index of the live input line.  The
source field `prefix` is named `prefixText` here. -/
structure PromptInputModelState where
  value : String
  prefixText : String
  suffix : String
  cursorIndex : Nat
  ghostTextIndex : Int
deriving Repr, DecidableEq

/-- The mutable instance (and class-level) state of
`PwshCompletionProviderAddon` that the embedded operations read and write.
The single-slot promise resolver `_completionsResolver` is modelled by an
optional resolver identity; `nextResolverId` supplies the identity of the
next freshly created promise so that distinct `_waitForCompletions` calls
yield distinguishable resolvers.  The class-level `cachedPwshCommands` set is
carried here as a list, per the spec note that the shared cache is modelled
as explicitly injected state. -/
structure ProviderState where
  codeCompletionsRequested : Bool := false
  gitCompletionsRequested : Bool := false
  lastUserDataTimestamp : Nat := 0
  isFilteringDirectories : Bool := false
  mostRecentCompletion : Option TerminalCompletionItem := none
  promptInputModel : Option PromptInputModelState := none
  currentPromptInputState : Option PromptInputModelState := none
  enableWidget : Bool := true
  pathSeparator : Char := sepChar
  leadingLineContent : Option String := none
  cursorIndexDelta : Int := 0
  completionsResolver : Option Nat := none
  nextResolverId : Nat := 0
  cachedPwshCommands : List TerminalCompletionItem := []
deriving Repr, DecidableEq

/-- The terminal-side conditions read by `_handleCompletionsSequence`:
whether `terminal.element` is set (attached) and whether the terminal element
contains the active element (focused). -/
structure TerminalContext where
  hasElement : Bool
  isFocused : Bool
deriving Repr, DecidableEq

/-- Embeds `_notifyCompletions` (lines 256-262): when a resolver is stored it
is invoked with the result and the slot is cleared; otherwise nothing
happens.  The returned pair is the new state and the resolution event (which
resolver fired, with which value); `none` as the inner value is JavaScript
`undefined`, distinct from `some []`. -/
def notifyCompletions (s : ProviderState)
    (result : Option (List TerminalCompletionItem)) :
    ProviderState × Option (Nat × Option (List TerminalCompletionItem)) :=
  match s.completionsResolver with
  | some r => ({ s with completionsResolver := none }, some (r, result))
  | none => (s, none)

/-- Embeds `_waitForCompletions` (lines 264-268): a new promise is created
and its resolve function is stored in the single resolver slot,
unconditionally overwriting whatever was there.  Returns the new state and
the identity of the newly created resolver. -/
def waitForCompletions (s : ProviderState) : ProviderState × Nat :=
  ({ s with
      completionsResolver := some s.nextResolverId,
      nextResolverId := s.nextResolverId + 1 },
    s.nextResolverId)

/-- Outbound trigger sequence `requestCompletionsSequence` (line 75). -/
def requestCompletionsSequence : String := "\x1b[24~e"

/-- Outbound trigger sequence `requestGlobalCompletionsSequence` (line 76). -/
def requestGlobalCompletionsSequence : String := "\x1b[24~f"

/-- Outbound trigger sequence `requestEnableGitCompletionsSequence`
(line 77). -/
def requestEnableGitCompletionsSequence : String := "\x1b[24~g"

/-- Outbound trigger sequence `requestEnableCodeCompletionsSequence`
(line 78). -/
def requestEnableCodeCompletionsSequence : String := "\x1b[24~h"

/-- Embeds `provideCompletions` (lines 270-293).  The configuration reads
(`builtinCompletions.pwshCode` / `.pwshGit`) and the `SuggestAddon` static
`lastAcceptedCompletionTimestamp` are passed as arguments; the `SuggestAddon`
escape sequences fired on `_onAcceptedCompletion` are, per the spec's list of
outbound trigger signals, the same four fixed byte sequences embedded above.
Returns the new state, the list of trigger sequences fired in order, and the
identity of the promise the caller awaits. -/
def provideCompletions (s : ProviderState)
    (builtinPwshCode builtinPwshGit : Bool)
    (lastAcceptedCompletionTimestamp : Nat) :
    ProviderState × List String × Nat :=
  let s1 := if !s.codeCompletionsRequested && builtinPwshCode then
      { s with codeCompletionsRequested := true } else s
  let sigs1 := if !s.codeCompletionsRequested && builtinPwshCode then
      [requestEnableCodeCompletionsSequence] else []
  let s2 := if !s1.gitCompletionsRequested && builtinPwshGit then
      { s1 with gitCompletionsRequested := true } else s1
  let sigs2 := if !s1.gitCompletionsRequested && builtinPwshGit then
      sigs1 ++ [requestEnableGitCompletionsSequence] else sigs1
  let sigs3 := if s2.cachedPwshCommands.isEmpty then
      sigs2 ++ [requestGlobalCompletionsSequence] else sigs2
  let sigs4 := if s2.lastUserDataTimestamp > lastAcceptedCompletionTimestamp then
      sigs3 ++ [requestCompletionsSequence] else sigs3
  let (s3, rid) := waitForCompletions s2
  (s3, sigs4, rid)

/-- JavaScript `String.prototype.substring`: both indices are clamped to the
string bounds (negative values become 0) and swapped when out of order. -/
def jsSubstring (s : String) (start stop : Int) : String :=
  let n : Int := (s.length : Int)
  let a := min (max start 0) n
  let b := min (max stop 0) n
  let lo := (min a b).toNat
  let hi := (max a b).toNat
  ⟨(s.data.take hi).drop lo⟩

/-- Embeds line 197: the leading line content is
`prefix.substring(replacementIndex, replacementIndex + replacementLength +
cursorIndexDelta)` with `replacementIndex = 0` and `replacementLength` the
cursor index at that point. -/
def leadingLineContentFor (s : ProviderState) (pim : PromptInputModelState) :
    String :=
  jsSubstring pim.prefixText 0 ((pim.cursorIndex : Int) + s.cursorIndexDelta)

/-- Embeds lines 200-201: a request is global when the leading line content
contains no space (`includes(' ')` on the character list) and its first
character is not an opening bracket (the first character of the empty string
being the empty string, which is not `[`). -/
def isGlobalCommandOf (leadingLineContent : String) : Bool :=
  !(leadingLineContent.data.contains ' ')
    && leadingLineContent.data.head? != some '['

/-- Models JavaScript `parseInt` on the numeric wire arguments: a non-empty
all-digit decimal string parses to its value; anything else is `NaN`
(`none`). -/
def parseIntNat (s : String) : Option Nat :=
  if !s.data.isEmpty && s.data.all Char.isDigit then
    some (s.data.foldl (fun n c => n * 10 + (c.toNat - 48)) 0)
  else none

/-- Modelled from the spec: `normalizePathSeparator` from the suggest addon
module (outside the two source files) rewrites the path separators of the
text to the detected separator. -/
def normalizePathSeparator (path : String) (separator : Char) : String :=
  ⟨path.data.map fun c => if isPathSepChar c then separator else c⟩

/-- Embeds the body of `_handleCompletionsSequence` after the attachment and
focus guards (lines 186-237), for a live prompt input model `pim`.  `args`
is the semicolon-split argument list following the `Completions` command
token and `payload` the raw JSON payload sliced off after the third
argument; `jsonParse` models the external `JSON.parse` applied to a
non-empty payload.  JavaScript `parseInt` on the numeric wire arguments is
modelled by `String.toNat?` (a `NaN` result from a non-numeric argument is
out of the modelled scope and defaults to 0).  The source computes a local
`normalizedLeadingLineContent` that is dead in this file; it is kept here as
an unused binding. -/
def handleCompletionsMain (jsonParse : String → RawCompletionsInput)
    (s : ProviderState) (pim : PromptInputModelState)
    (args : List String) (payload : String) :
    ProviderState × Option (Nat × Option (List TerminalCompletionItem)) :=
  let leading0 := leadingLineContentFor s pim
  let isGlobalCommand := isGlobalCommandOf leading0
  let replacementIndex : Nat :=
    if !isGlobalCommand then (parseIntNat (args.headD "")).getD 0 else 0
  let replacementLength : Nat :=
    if !isGlobalCommand then (parseIntNat (args.getD 1 "")).getD 0
    else pim.cursorIndex
  let leadingLineContent :=
    if !isGlobalCommand then pim.prefixText else leading0
  let rawCompletions : RawCompletionsInput :=
    if args.isEmpty || payload.data.isEmpty then .undef else jsonParse payload
  let parsed := parseCompletionsFromShell rawCompletions
    replacementIndex replacementLength
  let withCache :=
    if isGlobalCommand then parsed ++ s.cachedPwshCommands else parsed
  let completions :=
    match s.mostRecentCompletion with
    | some m =>
      if m.isDirectory && withCache.all (fun c => c.isDirectory) then
        withCache ++ [m]
      else withCache
    | none => withCache
  let cursorIndexDelta : Int :=
    (pim.cursorIndex : Int)
      - ((replacementIndex : Int) + (replacementLength : Int))
  let isFilteringDirectories := completions.any fun c => c.isDirectory
  let pathSeparator :=
    if isFilteringDirectories then
      (((completions.find? fun c => c.isDirectory).bind
        fun c => firstPathSepChar c.label)).getD sepChar
    else s.pathSeparator
  let _normalizedLeadingLineContent :=
    if isFilteringDirectories then
      normalizePathSeparator leadingLineContent pathSeparator
    else leadingLineContent
  let s1 := { s with
    currentPromptInputState := some pim,
    leadingLineContent := some leadingLineContent,
    mostRecentCompletion := none,
    cursorIndexDelta := cursorIndexDelta,
    isFilteringDirectories := isFilteringDirectories,
    pathSeparator := pathSeparator }
  notifyCompletions s1 (some completions)

/-- Embeds `_handleCompletionsSequence` (lines 171-238): when the terminal is
not attached, the widget is disabled, there is no prompt input model, or the
terminal is not focused, the pending request (if any) is resolved with
`undefined`; otherwise the main body runs. -/
def handleCompletionsSequence (jsonParse : String → RawCompletionsInput)
    (s : ProviderState) (ctx : TerminalContext)
    (args : List String) (payload : String) :
    ProviderState × Option (Nat × Option (List TerminalCompletionItem)) :=
  if !ctx.hasElement || !s.enableWidget || s.promptInputModel.isNone then
    notifyCompletions s none
  else if !ctx.isFocused then
    notifyCompletions s none
  else
    match s.promptInputModel with
    | some pim => handleCompletionsMain jsonParse s pim args payload
    | none => notifyCompletions s none

/-- Embeds the cache hydration block of the constructor (lines 113-122): when
the in-memory cache is empty and a persisted value exists, `JSON.parse` is
applied to it and every decoded entry is added to the cache.  There is no
surrounding try/catch, so a parse failure (the `.error` case of `jsonParse`,
modelling the thrown `SyntaxError`) propagates out of the constructor. -/
def hydrateCachedPwshCommands
    (jsonParse : String → Except String (List TerminalCompletionItem))
    (cache : List TerminalCompletionItem) (stored : Option String) :
    Except String (List TerminalCompletionItem) :=
  if cache.length == 0 then
    match stored with
    | some config =>
      match jsonParse config with
      | .ok completions => .ok (cache ++ completions)
      | .error e => .error e
    | none => .ok cache
  else .ok cache

/-- A character of the class `[a-z0-9]` without the `i` flag, as in the
spec-side anchored regex `^[A-Za-z0-9_.]+\.[a-z0-9]x7b2,4x7d$` (braces
elided): an ASCII lowercase letter or digit. -/
def isClaimExtensionChar (c : Char) : Bool :=
  c.isLower || c.isDigit

/-- An idle provider state, all fields at their construction-time values. -/
def c1IdleState : ProviderState := {}

/-- A provider state with a pending request (resolver 0 stored) whose prompt
input line reads `git c` with the cursor after it: the leading line content
contains a space, so the next inbound batch is contextual. -/
def c2State : ProviderState :=
  { promptInputModel := some ⟨"git c", "git c", "", 5, -1⟩,
    completionsResolver := some 0,
    nextResolverId := 1 }

/-- A stub for the external `JSON.parse` returning one object-form record. -/
def c2JsonParse : String → RawCompletionsInput :=
  fun _ => .objectArray [⟨"x", 0, none, none⟩]

/-- The previously accepted directory completion carried by the
sticky-directory scenario. -/
def c10PrevItem : TerminalCompletionItem :=
  ⟨"src/", Codicon.folder, "src/", false, true, false, 0, 2⟩

/-- A provider state with a pending request (resolver 3), a contextual
prompt line `cd s`, and a most recently accepted directory completion. -/
def c10State : ProviderState :=
  { promptInputModel := some ⟨"cd s", "cd s", "", 4, -1⟩,
    completionsResolver := some 3,
    nextResolverId := 4,
    mostRecentCompletion := some c10PrevItem }

/-! ## Helper lemmas -/

theorem compressedToPwshCompletion_pwshToCompressed (c : PwshCompletion) :
    compressedToPwshCompletion (pwshToCompressed c) = c := by
  cases c
  rfl

theorem replacement_span_of_mem_parse (raw : RawCompletionsInput)
    (i l : Nat) (it : TerminalCompletionItem)
    (h : it ∈ parseCompletionsFromShell raw i l) :
    it.replacementIndex = i ∧ it.replacementLength = l := by
  cases raw with
  | undef => simp [parseCompletionsFromShell] at h
  | singleObject c =>
    simp only [parseCompletionsFromShell, List.mem_singleton] at h
    subst h
    exact ⟨rfl, rfl⟩
  | singleCompressed t =>
    simp only [parseCompletionsFromShell, List.mem_singleton] at h
    subst h
    exact ⟨rfl, rfl⟩
  | compressedArray ts =>
    by_cases hts : ts.isEmpty
    · simp [parseCompletionsFromShell, hts] at h
    · simp only [parseCompletionsFromShell, hts, if_neg, Bool.false_eq_true,
        not_false_eq_true, List.mem_map] at h
      obtain ⟨t, -, rfl⟩ := h
      exact ⟨rfl, rfl⟩
  | objectArray cs =>
    by_cases hcs : cs.isEmpty
    · simp [parseCompletionsFromShell, hcs] at h
    · simp only [parseCompletionsFromShell, hcs, if_neg, Bool.false_eq_true,
        not_false_eq_true, List.mem_map] at h
      obtain ⟨c, -, rfl⟩ := h
      exact ⟨rfl, rfl⟩

theorem endsWithPathSep_push (s : String) (c : Char) :
    endsWithPathSep (s.push c) = isPathSepChar c := by
  unfold endsWithPathSep
  show ((s.data ++ [c]).getLast?.map isPathSepChar).getD false = isPathSepChar c
  simp

theorem isPathSepChar_firstPathSep_getD (s : String) :
    isPathSepChar ((firstPathSepChar s).getD sepChar) = true := by
  unfold firstPathSepChar
  cases h : s.data.find? isPathSepChar with
  | none => simp [sepChar, isPathSepChar]
  | some c => simpa using List.find?_some h

/-! ## Claim theorems -/

/-- C3, counterexample: with an unparsable persisted cache value, first-use
hydration does not leave the cache empty and return successfully; the decode
error escapes (construction throws), refuting non-fatality at the concrete
input `stored = "not json"`. -/
theorem cache_hydration_unparsable_throws_cex :
    hydrateCachedPwshCommands (fun _ => .error "SyntaxError: Unexpected token")
        [] (some "not json")
      = .error "SyntaxError: Unexpected token"
    ∧ hydrateCachedPwshCommands (fun _ => .error "SyntaxError: Unexpected token")
        [] (some "not json")
      ≠ .ok [] := by
  refine ⟨rfl, fun h => ?_⟩
  rw [show hydrateCachedPwshCommands
      (fun _ => .error "SyntaxError: Unexpected token") [] (some "not json")
      = .error "SyntaxError: Unexpected token" from rfl] at h
  exact Except.noConfusion h

/-- C3, amended: if the persisted global-command cache value exists but is
unparsable by the structured decoder, the decode error propagates out of the
constructor (first-use hydration throws rather than leaving the cache
empty). -/
theorem cache_hydration_error_propagates
    (jsonParse : String → Except String (List TerminalCompletionItem))
    (stored e : String) (hparse : jsonParse stored = .error e) :
    hydrateCachedPwshCommands jsonParse [] (some stored) = .error e := by
  unfold hydrateCachedPwshCommands
  simp [hparse]

/-- Witness for the amended C3 theorem at a concrete failing decoder. -/
theorem cache_hydration_error_propagates_witness :
    hydrateCachedPwshCommands (fun _ => Except.error "bad token") [] (some "oops")
      = Except.error "bad token" :=
  cache_hydration_error_propagates (fun _ => Except.error "bad token")
    "oops" "bad token" rfl

/-- C4, counterexample: a raw completion with result kind 13 (the second
keyword sub-code) is normalized with `isKeyword = false`, refuting the claim
that both keyword sub-codes yield `isKeyword = true`. -/
theorem keyword_subcode13_not_flagged_cex :
    (rawCompletionToTerminalCompletionItem ⟨"dynkw", 13, none, none⟩ 0 0).isKeyword
      = false := by
  decide

/-- C4, amended: normalization sets `isKeyword` to true exactly when the raw
result kind is 12; keyword sub-code 13 does not set it (and the executable
reclassification, which only maps kind 2 to kind 3, never produces kind
12). -/
theorem isKeyword_iff_resultKind12 (raw : PwshCompletion) (ri rl : Nat) :
    (rawCompletionToTerminalCompletionItem raw ri rl).isKeyword = true
      ↔ raw.ResultType = 12 := by
  unfold rawCompletionToTerminalCompletionItem reclassifiedResultType
  by_cases h : (raw.ResultType == 2 && matchShortExtension raw.CompletionText) = true
  · obtain ⟨h1, h3⟩ := (Bool.and_eq_true _ _).mp h
    have h2 : raw.ResultType = 2 := by simpa using h1
    simp [h, h2, h3]
  · simp only [Bool.not_eq_true] at h
    simp [h, Nat.beq_eq_true_eq]

/-- C5, counterexample: a custom icon id that does not resolve to a known
icon yields the generic symbol-text icon, not the kind-table icon (kind 4
maps to the folder icon in the table), refuting the table fallback for
present-but-unresolved ids. -/
theorem unknown_custom_icon_cex :
    getIcon 4 (some "notARealCodicon") = Codicon.symbolText
    ∧ pwshTypeToIconMap 4 = some Codicon.folder
    ∧ Codicon.symbolText ≠ Codicon.folder := by
  decide

/-- C5, amended: when a custom icon id is present (non-empty) it always
decides the icon — the registry entry when it resolves and the generic
symbol-text icon when it does not; the fixed kind-to-icon table is consulted
only when no custom icon id is present, falling back to the generic symbol
icon for kinds absent from the table. -/
theorem icon_selection_spec (resultType : Nat) (id : String) (hne : id ≠ "") :
    (∀ ic, codiconRegistry.lookup id = some ic →
        getIcon resultType (some id) = ic)
    ∧ (codiconRegistry.lookup id = none →
        getIcon resultType (some id) = Codicon.symbolText)
    ∧ getIcon resultType none
        = (pwshTypeToIconMap resultType).getD Codicon.symbolText := by
  have hempty : id.isEmpty = false := by
    cases hid : id.isEmpty
    · rfl
    · exact absurd ((String.isEmpty_iff id).mp hid) hne
  refine ⟨fun ic hic => ?_, fun hn => ?_, rfl⟩
  · simp [getIcon, hempty, hic]
  · simp [getIcon, hempty, hn]

/-- Witness for the amended C5 theorem: a resolving id wins, an unresolving
id yields the generic symbol-text icon. -/
theorem icon_selection_spec_witness :
    getIcon 4 (some "history") = Codicon.history
    ∧ getIcon 4 (some "notIncluded") = Codicon.symbolText :=
  ⟨(icon_selection_spec 4 "history" (by decide)).1 Codicon.history (by decide),
   (icon_selection_spec 4 "notIncluded" (by decide)).2.1 (by decide)⟩

/-- C6: decoding the object-form encoding of a batch of logical completions
and decoding the corresponding element-wise tuple-form encoding, followed by
normalization, yield identical completion item sequences (both for the array
forms and for the single-record forms), for every replacement span. -/
theorem tuple_object_forms_normalize_identically (cs : List PwshCompletion)
    (c : PwshCompletion) (ri rl : Nat) :
    parseCompletionsFromShell (.objectArray cs) ri rl
      = parseCompletionsFromShell (.compressedArray (cs.map pwshToCompressed)) ri rl
    ∧ parseCompletionsFromShell (.singleObject c) ri rl
      = parseCompletionsFromShell (.singleCompressed (pwshToCompressed c)) ri rl := by
  constructor
  · cases cs with
    | nil => rfl
    | cons hd tl =>
      simp [parseCompletionsFromShell, List.map_map, Function.comp,
        compressedToPwshCompletion_pwshToCompressed]
  · simp [parseCompletionsFromShell, compressedToPwshCompletion_pwshToCompressed]

theorem directorySuffixedLabel_endsWith_eq (raw : PwshCompletion)
    (hend : endsWithPathSep raw.CompletionText = true) :
    directorySuffixedLabel raw = raw.CompletionText := by
  simp only [directorySuffixedLabel]
  simp [hend]

theorem directorySuffixedLabel_ends_or_eq (raw : PwshCompletion) :
    endsWithPathSep (directorySuffixedLabel raw) = true
    ∨ directorySuffixedLabel raw = raw.CompletionText := by
  by_cases hc : (raw.ResultType == 4
      && !(raw.CompletionText == "-" || raw.CompletionText == "+")
      && !(raw.CompletionText == "." || raw.CompletionText == "..")
      && !endsWithPathSep raw.CompletionText) = true
  · left
    simp only [directorySuffixedLabel]
    rw [if_pos hc, endsWithPathSep_push]
    exact isPathSepChar_firstPathSep_getD _
  · right
    simp only [directorySuffixedLabel]
    rw [if_neg hc]

/-- C7: for a raw completion of directory kind (result kind 4), normalization
appends a path separator — the first backslash or forward slash found inside
the label, else the host default — exactly when the label does not already
end in a separator and is not exactly `.`, `..`, `-` or `+`; and normalizing
an already-normalized label a second time changes nothing (idempotence). -/
theorem directory_suffixing_spec (raw : PwshCompletion) (ri rl : Nat)
    (h4 : raw.ResultType = 4) :
    (endsWithPathSep raw.CompletionText = false →
      raw.CompletionText ≠ "-" → raw.CompletionText ≠ "+" →
      raw.CompletionText ≠ "." → raw.CompletionText ≠ ".." →
      (rawCompletionToTerminalCompletionItem raw ri rl).label
        = raw.CompletionText.push
            ((firstPathSepChar raw.CompletionText).getD sepChar))
    ∧ (endsWithPathSep raw.CompletionText = true →
      (rawCompletionToTerminalCompletionItem raw ri rl).label
        = raw.CompletionText)
    ∧ (raw.CompletionText = "-" ∨ raw.CompletionText = "+"
        ∨ raw.CompletionText = "." ∨ raw.CompletionText = ".." →
      (rawCompletionToTerminalCompletionItem raw ri rl).label
        = raw.CompletionText)
    ∧ (rawCompletionToTerminalCompletionItem
        { raw with CompletionText := (rawCompletionToTerminalCompletionItem raw ri rl).label }
        ri rl).label
      = (rawCompletionToTerminalCompletionItem raw ri rl).label := by
  have hlabel : ∀ (r : PwshCompletion) (i l : Nat),
      (rawCompletionToTerminalCompletionItem r i l).label
        = directorySuffixedLabel r := fun _ _ _ => rfl
  refine ⟨?_, ?_, ?_, ?_⟩
  · intro hend hm hp hd hdd
    have hc : (raw.ResultType == 4
        && !(raw.CompletionText == "-" || raw.CompletionText == "+")
        && !(raw.CompletionText == "." || raw.CompletionText == "..")
        && !endsWithPathSep raw.CompletionText) = true := by
      simp [h4, hend, hm, hp, hd, hdd]
    rw [hlabel]
    simp only [directorySuffixedLabel]
    rw [if_pos hc]
  · intro hend
    rw [hlabel]
    exact directorySuffixedLabel_endsWith_eq raw hend
  · intro hcase
    have hc : ¬(raw.ResultType == 4
        && !(raw.CompletionText == "-" || raw.CompletionText == "+")
        && !(raw.CompletionText == "." || raw.CompletionText == "..")
        && !endsWithPathSep raw.CompletionText) = true := by
      rcases hcase with h | h | h | h <;> simp [h]
    rw [hlabel]
    simp only [directorySuffixedLabel]
    rw [if_neg hc]
  · simp only [hlabel]
    rcases directorySuffixedLabel_ends_or_eq raw with h | h
    · exact directorySuffixedLabel_endsWith_eq _ h
    · rw [h]
      exact h

theorem matchShortExtension_of_suffix (p e : String)
    (hlen2 : 2 ≤ e.length) (hlen4 : e.length ≤ 4)
    (hall : e.data.all isClaimExtensionChar = true) :
    matchShortExtension (p ++ "." ++ e) = true := by
  have hdata : (p ++ "." ++ e).data.reverse
      = e.data.reverse ++ '.' :: p.data.reverse := by
    show ((p.data ++ ['.']) ++ e.data).reverse = _
    simp
  have hlen : e.data.reverse.length = e.length := by
    rw [List.length_reverse]
    rfl
  have hget : (p ++ "." ++ e).data.reverse[e.length]? = some '.' := by
    rw [hdata, ← hlen, List.getElem?_append_right (Nat.le_refl _)]
    simp
  have htake : (p ++ "." ++ e).data.reverse.take e.length = e.data.reverse := by
    rw [hdata, ← hlen]
    exact List.take_left _ _
  have hallrev : ((p ++ "." ++ e).data.reverse.take e.length).all isExtensionChar
      = true := by
    rw [htake, List.all_reverse]
    rw [List.all_eq_true] at hall ⊢
    intro c hc
    have := hall c hc
    simp only [isClaimExtensionChar, Bool.or_eq_true] at this
    simp only [isExtensionChar, Char.isAlphanum, Char.isAlpha, Bool.or_eq_true]
    rcases this with h | h
    · exact Or.inl (Or.inr h)
    · exact Or.inr h
  unfold matchShortExtension
  rw [List.any_eq_true]
  refine ⟨e.length, ?_, ?_⟩
  · have hmem : e.length = 2 ∨ e.length = 3 ∨ e.length = 4 := by omega
    rcases hmem with h | h | h <;> rw [h] <;> simp
  · rw [Bool.and_eq_true]
    exact ⟨by rw [hget]; rfl, hallrev⟩

/-- C8: a raw completion of kind 2 (method/executable-candidate) whose text
ends in a dot followed by a 2-to-4-character alphanumeric extension is
reclassified as a file before the flags are derived — `isFile = true`,
`isDirectory = isKeyword = false` — while the icon is still the one chosen
for the original kind 2; and every label of the form `p.e` with `e` a 2-to-4
character lowercase-alphanumeric extension satisfies the extension test. -/
theorem executable_reclassification_spec (raw : PwshCompletion) (ri rl : Nat)
    (h2 : raw.ResultType = 2)
    (hext : matchShortExtension raw.CompletionText = true) :
    ((rawCompletionToTerminalCompletionItem raw ri rl).isFile = true
      ∧ (rawCompletionToTerminalCompletionItem raw ri rl).isDirectory = false
      ∧ (rawCompletionToTerminalCompletionItem raw ri rl).isKeyword = false
      ∧ (rawCompletionToTerminalCompletionItem raw ri rl).icon
          = getIcon 2 raw.CustomIcon)
    ∧ ∀ p e : String, 2 ≤ e.length → e.length ≤ 4 →
        e.data.all isClaimExtensionChar = true →
        matchShortExtension (p ++ "." ++ e) = true := by
  have hk : reclassifiedResultType raw = 3 := by
    unfold reclassifiedResultType
    simp [h2, hext]
  exact ⟨⟨by simp [rawCompletionToTerminalCompletionItem, hk],
          by simp [rawCompletionToTerminalCompletionItem, hk],
          by simp [rawCompletionToTerminalCompletionItem, hk],
          by simp [rawCompletionToTerminalCompletionItem, h2]⟩,
        matchShortExtension_of_suffix⟩

/-- Witness for C7 at concrete directory completions: `foo` gains the default
separator, `bar/` and `..` are left unchanged. -/
theorem directory_suffixing_spec_witness :
    (rawCompletionToTerminalCompletionItem ⟨"foo", 4, none, none⟩ 1 2).label = "foo/"
    ∧ (rawCompletionToTerminalCompletionItem ⟨"bar/", 4, none, none⟩ 1 2).label = "bar/"
    ∧ (rawCompletionToTerminalCompletionItem ⟨"..", 4, none, none⟩ 1 2).label = ".." := by
  refine ⟨?_, ?_, ?_⟩
  · have h := (directory_suffixing_spec ⟨"foo", 4, none, none⟩ 1 2 rfl).1
      (by decide) (by decide) (by decide) (by decide) (by decide)
    exact h.trans (by decide)
  · exact (directory_suffixing_spec ⟨"bar/", 4, none, none⟩ 1 2 rfl).2.1 (by decide)
  · exact (directory_suffixing_spec ⟨"..", 4, none, none⟩ 1 2 rfl).2.2.1
      (Or.inr (Or.inr (Or.inr rfl)))

/-- Witness for C8 at the concrete executable candidate `git.exe`. -/
theorem executable_reclassification_spec_witness :
    (rawCompletionToTerminalCompletionItem ⟨"git.exe", 2, none, none⟩ 0 0).isFile = true
    ∧ matchShortExtension ("git" ++ "." ++ "exe") = true := by
  refine ⟨(executable_reclassification_spec ⟨"git.exe", 2, none, none⟩ 0 0 rfl
      (by decide)).1.1, ?_⟩
  exact (executable_reclassification_spec ⟨"git.exe", 2, none, none⟩ 0 0 rfl
      (by decide)).2 "git" "exe" (by decide) (by decide) (by decide)

/-- C1, counterexample: from an idle state, a first `provideCompletions` call
stores resolver 0; a second call while that request is pending stores a new
resolver 1 — a second resolver is created and the stored one is no longer the
original — and the next inbound batch fulfills resolver 1, not resolver 0. -/
theorem second_request_creates_new_resolver_cex :
    (provideCompletions c1IdleState true true 0).2.2 = 0
    ∧ ((provideCompletions ((provideCompletions c1IdleState true true 0).1)
        true true 0).1).completionsResolver = some 1
    ∧ (1 : Nat) ≠ 0
    ∧ (notifyCompletions ((provideCompletions
        ((provideCompletions c1IdleState true true 0).1) true true 0).1)
        (some [])).2 = some (1, some []) := by
  decide

/-- C1, amended: a `provideCompletions` call issued while a request is
pending does not share the stored resolver — it unconditionally overwrites
the single slot with a freshly created resolver, and the next inbound batch
fulfills only that most recent resolver (last-writer-wins); the original
caller's promise is never resolved by it. -/
theorem second_request_overwrites_resolver (s : ProviderState)
    (code git : Bool) (t r : Nat)
    (hr : s.completionsResolver = some r) (hfresh : r < s.nextResolverId) :
    (provideCompletions s code git t).1.completionsResolver
        = some (provideCompletions s code git t).2.2
    ∧ (provideCompletions s code git t).2.2 ≠ r
    ∧ ∀ v, notifyCompletions (provideCompletions s code git t).1 v
        = ({ (provideCompletions s code git t).1 with completionsResolver := none },
            some ((provideCompletions s code git t).2.2, v)) := by
  have key : (provideCompletions s code git t).1.completionsResolver
        = some s.nextResolverId
      ∧ (provideCompletions s code git t).2.2 = s.nextResolverId := by
    simp only [provideCompletions, waitForCompletions]
    split_ifs <;> exact ⟨rfl, rfl⟩
  refine ⟨by rw [key.1, key.2], by rw [key.2]; omega, fun v => ?_⟩
  simp [notifyCompletions, key.1, key.2]

/-- Witness for the amended C1 theorem at a concrete pending state. -/
theorem second_request_overwrites_resolver_witness :
    (provideCompletions
        ({ completionsResolver := some 0, nextResolverId := 1 } : ProviderState)
        true true 0).2.2 ≠ 0 :=
  (second_request_overwrites_resolver
    ({ completionsResolver := some 0, nextResolverId := 1 } : ProviderState)
    true true 0 0 rfl (by decide)).2.1

/-- C9: when an inbound `Completions` batch arrives while a request is
pending and the terminal is not attached, the widget is disabled, there is no
live prompt input model, or the terminal is not focused, the pending promise
is resolved with `undefined` (`none`, not `some []` and not an error) and the
resolver slot returns to idle. -/
theorem unfocused_batch_resolves_undefined
    (jsonParse : String → RawCompletionsInput) (s : ProviderState)
    (ctx : TerminalContext) (args : List String) (payload : String) (r : Nat)
    (hr : s.completionsResolver = some r)
    (hguard : ctx.hasElement = false ∨ s.enableWidget = false
      ∨ s.promptInputModel = none ∨ ctx.isFocused = false) :
    handleCompletionsSequence jsonParse s ctx args payload
      = ({ s with completionsResolver := none }, some (r, none)) := by
  have hnotify : notifyCompletions s none
      = ({ s with completionsResolver := none }, some (r, none)) := by
    simp [notifyCompletions, hr]
  unfold handleCompletionsSequence
  rcases hguard with h | h | h | h
  · simp [h, hnotify]
  · simp [h, hnotify]
  · simp [h, hnotify]
  · by_cases h1 : (!ctx.hasElement || !s.enableWidget || s.promptInputModel.isNone) = true
    · simp [h1, hnotify]
    · simp [h1, h, hnotify]

/-- Witness for C9: a detached, unfocused terminal resolves pending
resolver 5 with `undefined`. -/
theorem unfocused_batch_resolves_undefined_witness :
    handleCompletionsSequence (fun _ => RawCompletionsInput.undef)
        ({ completionsResolver := some 5 } : ProviderState) ⟨false, true⟩ [] ""
      = (({ completionsResolver := none } : ProviderState), some (5, none)) := by
  have h := unfocused_batch_resolves_undefined (fun _ => RawCompletionsInput.undef)
    ({ completionsResolver := some 5 } : ProviderState) ⟨false, true⟩ [] "" 5 rfl
    (Or.inl rfl)
  exact h

/-- C10: when an inbound contextual batch decodes to the empty list while a
request is pending on a focused, attached terminal and the most recently
accepted completion was a directory, the vacuously true all-directories check
carries the previous candidate into the batch: the pending request resolves
with the one-element list holding only the carried-over candidate, and the
carried candidate is cleared in the resulting state. -/
theorem sticky_directory_carryover_empty_batch
    (jsonParse : String → RawCompletionsInput) (s : ProviderState)
    (ctx : TerminalContext) (pim : PromptInputModelState)
    (a0 a1 : String) (rest : List String) (payload : String)
    (r : Nat) (prev : TerminalCompletionItem)
    (hEl : ctx.hasElement = true) (hFoc : ctx.isFocused = true)
    (hEn : s.enableWidget = true) (hPim : s.promptInputModel = some pim)
    (hr : s.completionsResolver = some r)
    (hPrev : s.mostRecentCompletion = some prev)
    (hPrevDir : prev.isDirectory = true)
    (hGlob : isGlobalCommandOf (leadingLineContentFor s pim) = false)
    (hEmpty : ∀ i l : Nat,
      parseCompletionsFromShell
        (if payload.data.isEmpty then RawCompletionsInput.undef else jsonParse payload)
        i l = []) :
    (handleCompletionsSequence jsonParse s ctx (a0 :: a1 :: rest) payload).2
      = some (r, some [prev])
    ∧ (handleCompletionsSequence jsonParse s ctx (a0 :: a1 :: rest) payload).1.mostRecentCompletion
      = none := by
  have hmain : handleCompletionsSequence jsonParse s ctx (a0 :: a1 :: rest) payload
      = handleCompletionsMain jsonParse s pim (a0 :: a1 :: rest) payload := by
    unfold handleCompletionsSequence
    simp [hEl, hEn, hFoc, hPim]
  rw [hmain]
  unfold handleCompletionsMain
  have hEmptyList : ∀ i l : Nat,
      parseCompletionsFromShell
        (if payload.data = [] then RawCompletionsInput.undef else jsonParse payload)
        i l = [] := by
    intro i l
    simpa using hEmpty i l
  simp [hGlob, hEmptyList, hPrev, hPrevDir, notifyCompletions, hr]

/-- Witness for C10: the `cd s` scenario with a pending resolver 3, an empty
payload and a carried directory completion `src/`. -/
theorem sticky_directory_carryover_empty_batch_witness :
    (handleCompletionsSequence (fun _ => RawCompletionsInput.undef) c10State
        ⟨true, true⟩ ["1", "2", "0"] "").2 = some (3, some [c10PrevItem])
    ∧ (handleCompletionsSequence (fun _ => RawCompletionsInput.undef) c10State
        ⟨true, true⟩ ["1", "2", "0"] "").1.mostRecentCompletion = none := by
  exact sticky_directory_carryover_empty_batch (fun _ => RawCompletionsInput.undef)
    c10State ⟨true, true⟩ ⟨"cd s", "cd s", "", 4, -1⟩ "1" "2" ["0"] "" 3 c10PrevItem
    rfl rfl rfl rfl rfl rfl rfl (by decide) (fun _ _ => rfl)

/-- C2, counterexample: a contextual `Completions` message with arguments
`5;7;9` yields items whose replacement index is 5 (the first argument) and
replacement length is 7 (the second argument), refuting the claim that the
first argument is unused and the index and length come from the second and
third arguments (which would give 7 and 9). -/
theorem contextual_args_mapping_cex :
    (handleCompletionsSequence c2JsonParse c2State ⟨true, true⟩ ["5", "7", "9"] "x").2
      = some (0, some [{ label := "x", icon := Codicon.symbolText, detail := "x",
                         isFile := false, isDirectory := false, isKeyword := false,
                         replacementIndex := 5, replacementLength := 7 }])
    ∧ (5 : Nat) ≠ 7 ∧ (7 : Nat) ≠ 9 := by
  decide

/-- C2, amended: for a contextual (non-global) `Completions` message, the
replacement index is taken from the FIRST semicolon-separated argument and
the replacement length from the SECOND; every decoded item carries that span,
and the remaining arguments (third onward) do not influence the result. -/
theorem contextual_replacement_from_first_two_args
    (jsonParse : String → RawCompletionsInput) (s : ProviderState)
    (ctx : TerminalContext) (pim : PromptInputModelState)
    (a0 a1 a2 : String) (rest : List String) (payload : String)
    (r i l : Nat)
    (hEl : ctx.hasElement = true) (hFoc : ctx.isFocused = true)
    (hEn : s.enableWidget = true) (hPim : s.promptInputModel = some pim)
    (hr : s.completionsResolver = some r)
    (hMost : s.mostRecentCompletion = none)
    (hGlob : isGlobalCommandOf (leadingLineContentFor s pim) = false)
    (hi : parseIntNat a0 = some i) (hl : parseIntNat a1 = some l) :
    ((handleCompletionsSequence jsonParse s ctx (a0 :: a1 :: a2 :: rest) payload).2
      = some (r, some (parseCompletionsFromShell
          (if payload.data.isEmpty then RawCompletionsInput.undef else jsonParse payload)
          i l)))
    ∧ (∀ it ∈ parseCompletionsFromShell
          (if payload.data.isEmpty then RawCompletionsInput.undef else jsonParse payload)
          i l,
        it.replacementIndex = i ∧ it.replacementLength = l)
    ∧ ∀ (a2' : String) (rest' : List String),
        handleCompletionsSequence jsonParse s ctx (a0 :: a1 :: a2 :: rest) payload
          = handleCompletionsSequence jsonParse s ctx (a0 :: a1 :: a2' :: rest') payload := by
  have hmain : ∀ args, handleCompletionsSequence jsonParse s ctx args payload
      = handleCompletionsMain jsonParse s pim args payload := by
    intro args
    unfold handleCompletionsSequence
    simp [hEl, hEn, hFoc, hPim]
  refine ⟨?_, fun it hit => replacement_span_of_mem_parse _ _ _ _ hit, ?_⟩
  · rw [hmain]
    unfold handleCompletionsMain
    simp [hGlob, hMost, hi, hl, notifyCompletions, hr]
  · intro a2' rest'
    rw [hmain, hmain]
    unfold handleCompletionsMain
    simp [hGlob, hMost, hi, hl]

/-- Witness for the amended C2 theorem at the concrete `git c` scenario. -/
theorem contextual_replacement_from_first_two_args_witness :
    (handleCompletionsSequence c2JsonParse c2State ⟨true, true⟩
        ["5", "7", "9"] "x").2
      = some (0, some (parseCompletionsFromShell
          (if ("x" : String).data.isEmpty then RawCompletionsInput.undef
            else c2JsonParse "x") 5 7)) := by
  exact (contextual_replacement_from_first_two_args c2JsonParse c2State
    ⟨true, true⟩ ⟨"git c", "git c", "", 5, -1⟩ "5" "7" "9" [] "x" 0 5 7
    rfl rfl rfl rfl rfl rfl (by decide) (by decide) (by decide)).1
